import Mathlib

/-!
Verification of the CloudDependencyExplorer dashboard component.

The definitions below are a shallow embedding of the client-side state
and derivation logic of the component: the catalog (seed companies plus
session-added custom companies), the search/filter derivations, the
provider aggregation, and the handleAddCompany ingestion routine.
JavaScript strings are modelled as Lean strings, with the JavaScript
string methods (trim, toLowerCase, startsWith, includes, replace, split)
modelled by structurally recursive functions on the character list so
that every definition evaluates inside the kernel. Nullable strings are
modelled as Option String, with JavaScript truthiness of a string
(non-null and non-empty) made explicit where the source branches on it.
The single asynchronous detection call is passed in as an oracle
argument, and the ingestion routine additionally returns the number of
external detection calls it issued.
-/

/-- A catalog entry. The provider field is a plain string in the source
(TypeScript only documents the intended enumeration), so it is a String
here as well. -/
structure Company where
  name : String
  symbol : String
  domain : String
  provider : String
deriving DecidableEq

/-- The mutable component state touched by the ingestion routine. -/
structure ExplorerState where
  customCompanies : List Company
  newCompanyUrl : String
  isDetecting : Bool
  detectionError : Option String
deriving DecidableEq

/-- Outcome of the external detection call: ok provider models a
successful response whose JSON body carries the given provider value;
fail models a non-ok response or a thrown network error. -/
inductive DetectOutcome where
  | ok (provider : String)
  | fail
deriving DecidableEq

/-- The full catalog: the static seed list (imported by the source from
the company-data module, kept abstract here as a parameter) followed by
the session-added companies, in order. -/
def allCompanies (seed : List Company) (s : ExplorerState) : List Company :=
  seed ++ s.customCompanies

/-- Whitespace characters removed by the JavaScript trim method (the
common ones; exotic Unicode whitespace is not needed by this component). -/
def isSpaceChar (c : Char) : Bool :=
  c == ' ' || c == '\t' || c == '\n' || c == '\r'

/-- Model of the JavaScript trim method: remove whitespace from both
ends of the string. -/
def jsTrim (s : String) : String :=
  String.mk (((s.data.dropWhile isSpaceChar).reverse.dropWhile isSpaceChar).reverse)

/-- Model of the JavaScript toLowerCase method (ASCII letters). -/
def jsToLower (s : String) : String :=
  String.mk (s.data.map Char.toLower)

/-- Model of the JavaScript startsWith method. -/
def jsStartsWith (s pat : String) : Bool :=
  pat.data.isPrefixOf s.data

/-- Boolean test that sub occurs as a contiguous substring of the
character list, modelling the JavaScript includes method. -/
def hasSubstr (sub : List Char) : List Char → Bool
  | [] => sub.isEmpty
  | c :: cs => sub.isPrefixOf (c :: cs) || hasSubstr sub cs

/-- The search/filter derivation: keep the companies whose lower-cased
name contains the lower-cased query, and whose provider equals the
selected provider when one is selected. The source condition
(not selectedProvider, or company.provider equals selectedProvider)
treats both null and the empty string as no filter, following JavaScript
truthiness. -/
def filteredCompanies (all : List Company) (searchQuery : String)
    (selectedProvider : Option String) : List Company :=
  all.filter fun company =>
    let matchesSearch :=
      hasSubstr (jsToLower searchQuery).data (jsToLower company.name).data
    let matchesProvider :=
      match selectedProvider with
      | none => true
      | some p => p == "" || company.provider == p
    matchesSearch && matchesProvider

/-- The displayed list: while a provider is hovered (a truthy string),
show every catalog company of that provider, ignoring search and the
sticky filter; otherwise show the filtered list. -/
def displayedCompanies (all : List Company) (hoveredProvider : Option String)
    (searchQuery : String) (selectedProvider : Option String) : List Company :=
  match hoveredProvider with
  | some h =>
      if h == "" then filteredCompanies all searchQuery selectedProvider
      else all.filter fun c => c.provider == h
  | none => filteredCompanies all searchQuery selectedProvider

/-- One step of the provider-count accumulation: increment the entry for
the given provider, inserting it at the end when absent, exactly as
JavaScript object update preserves string-key insertion order. -/
def bump : List (String × Nat) → String → List (String × Nat)
  | [], p => [(p, 1)]
  | (q, n) :: rest, p =>
      if q = p then (q, n + 1) :: rest else (q, n) :: bump rest p

/-- The provider-count aggregation: a single pass over the catalog
building a record from provider to count. -/
def providerCounts (all : List Company) : List (String × Nat) :=
  all.foldl (fun counts c => bump counts c.provider) []

/-- Record lookup with the JavaScript default: an absent key reads as 0
(the source writes counts of the provider, or 0). -/
def getCount (counts : List (String × Nat)) (p : String) : Nat :=
  match counts with
  | [] => 0
  | (q, n) :: rest => if q = p then n else getCount rest p

/-- Math.round: round half toward positive infinity. -/
def jsRound (q : ℚ) : Int :=
  ⌊q + 1 / 2⌋

/-- The Big 3 headline percentage as computed in the source:
Math.round of (AWS count + Azure count + GCP count) divided by the
catalog size, times 100. In JavaScript the division 0 by 0 that arises
on an empty catalog produces NaN, which Math.round propagates; that NaN
outcome is represented here as none. -/
def big3Percent (all : List Company) : Option Int :=
  let counts := providerCounts all
  let big3 : Nat := getCount counts "AWS" + getCount counts "Azure" + getCount counts "GCP"
  if all.length = 0 then none
  else some (jsRound ((big3 : ℚ) / (all.length : ℚ) * 100))

/-- Characters that terminate the host part of a URL authority. -/
def hostEndChar (c : Char) : Bool :=
  c == '/' || c == '\\' || c == '?' || c == '#'

/-- Model of the JavaScript URL hostname for http and https URLs: the
text after the scheme separator up to the first slash, backslash,
question mark or hash, with any user-info part (up to the last at sign)
removed, any port suffix (after a colon) removed, and letters
lower-cased. -/
def urlHostname (s : String) : String :=
  let rest :=
    if jsStartsWith s "https://" then s.data.drop 8
    else if jsStartsWith s "http://" then s.data.drop 7
    else s.data
  let authority := rest.takeWhile fun c => !(hostEndChar c)
  let afterUser := authority.foldl (fun acc c => if c == '@' then [] else acc.concat c) []
  let host := afterUser.takeWhile fun c => !(c == ':')
  String.mk (host.map Char.toLower)

/-- Remove the first occurrence of pat from the list, modelling the
JavaScript String.replace method with a string pattern and an empty
replacement: only the first occurrence, wherever it is, is removed. -/
def removeFirst (pat : List Char) : List Char → List Char
  | [] => []
  | c :: cs =>
      if pat.isPrefixOf (c :: cs) then (c :: cs).drop pat.length
      else c :: removeFirst pat cs

/-- Domain normalization performed by handleAddCompany: trim, take the
URL hostname when the trimmed input starts with the literal lowercase
scheme http:// or https://, then remove the first occurrence of the
literal www. from the result. -/
def normalizeDomain (input : String) : String :=
  let domain := jsTrim input
  let domain :=
    if jsStartsWith domain "http://" || jsStartsWith domain "https://" then urlHostname domain
    else domain
  String.mk (removeFirst "www.".data domain.data)

/-- Models charAt(0).toUpperCase() followed by slice(1): only the first
character is upper-cased, the rest is unchanged. -/
def upperFirst (s : String) : String :=
  match s.data with
  | [] => ""
  | c :: cs => String.mk (Char.toUpper c :: cs)

/-- Models split on a dot, then taking element 0: the characters before
the first dot. -/
def firstLabel (s : String) : String :=
  String.mk (s.data.takeWhile fun c => !(c == '.'))

/-- One invocation of handleAddCompany, with the outcome of the external
detection call passed as an oracle. Returns the new state together with
the number of external detection calls issued. The early return on an
input that trims to the empty string happens before the error field is
cleared; the duplicate check happens before the external call. -/
def handleAddCompany (seed : List Company) (s : ExplorerState)
    (detect : DetectOutcome) : ExplorerState × Nat :=
  if jsTrim s.newCompanyUrl == "" then (s, 0)
  else
    let s1 : ExplorerState := { s with isDetecting := true, detectionError := none }
    let domain := normalizeDomain s.newCompanyUrl
    if (allCompanies seed s1).any (fun c => c.domain == domain) then
      ({ s1 with detectionError := some "Company already exists", isDetecting := false }, 0)
    else
      match detect with
      | .fail =>
          ({ s1 with
              detectionError := some "Failed to detect cloud provider. Please try again.",
              isDetecting := false }, 1)
      | .ok provider =>
          let formattedName := upperFirst (firstLabel domain)
          let newCompany : Company :=
            { name := formattedName, symbol := "CUSTOM", domain := domain,
              provider := provider }
          ({ s1 with
              customCompanies := s1.customCompanies ++ [newCompany],
              newCompanyUrl := "",
              isDetecting := false }, 1)

/-- The provider enumeration documented by the data model (the color and
display-name tables of the source enumerate exactly these keys). -/
def providerEnum : List String :=
  ["AWS", "Azure", "GCP", "Oracle", "Alibaba", "Other"]

theorem hasSubstr_eq_true_iff (sub : List Char) (l : List Char) :
    hasSubstr sub l = true ↔ sub <:+: l := by
  induction l with
  | nil =>
      simp [hasSubstr, List.isEmpty_iff, List.infix_nil]
  | cons c cs ih =>
      simp [hasSubstr, List.infix_cons_iff, ih]

theorem hasSubstr_nil (l : List Char) : hasSubstr [] l = true := by
  cases l <;> simp [hasSubstr]

/-- C1: membership in filteredCompanies is equivalent to membership in
the catalog together with case-insensitive substring matching of the
query against the name and, when a provider filter is set (a truthy
string), equality with that provider; with the empty query and no filter
the whole catalog is returned. -/
theorem filteredCompanies_sound_complete (all : List Company) (q : String)
    (sel : Option String) :
    (∀ c, c ∈ filteredCompanies all q sel ↔
      c ∈ all ∧ (jsToLower q).data <:+: (jsToLower c.name).data ∧
        (∀ p, sel = some p → p ≠ "" → c.provider = p)) ∧
    filteredCompanies all "" none = all := by
  constructor
  · intro c
    rw [filteredCompanies, List.mem_filter]
    simp only [Bool.and_eq_true, hasSubstr_eq_true_iff]
    constructor
    · rintro ⟨hmem, hsearch, hprov⟩
      refine ⟨hmem, hsearch, ?_⟩
      intro p hp hpne
      subst hp
      simp only [Bool.or_eq_true, beq_iff_eq] at hprov
      rcases hprov with h | h
      · exact absurd h hpne
      · exact h
    · rintro ⟨hmem, hsearch, hprov⟩
      refine ⟨hmem, hsearch, ?_⟩
      cases sel with
      | none => rfl
      | some p =>
          by_cases hp : p = ""
          · simp [hp]
          · simp [hprov p rfl hp]
  · rw [filteredCompanies, List.filter_eq_self]
    intro c _
    have h0 : (jsToLower "").data = ([] : List Char) := by decide
    simp [h0, hasSubstr_nil]

/-- C2: when a provider is hovered (providers are non-empty strings), the
displayed list is exactly the catalog companies of that provider, and it
does not depend on the search query or the sticky filter; when nothing is
hovered, the displayed list is the filtered list. -/
theorem displayedCompanies_hover_priority (all : List Company) (h : String)
    (q q' : String) (sel sel' : Option String) (hne : h ≠ "") :
    (∀ c, c ∈ displayedCompanies all (some h) q sel ↔ c ∈ all ∧ c.provider = h) ∧
    displayedCompanies all (some h) q sel = displayedCompanies all (some h) q' sel' ∧
    displayedCompanies all none q sel = filteredCompanies all q sel := by
  have hb : (h == "") = false := by
    simp [hne]
  refine ⟨?_, ?_, rfl⟩
  · intro c
    simp [displayedCompanies, hb, List.mem_filter]
  · simp [displayedCompanies, hb]

/-- Closed instance of the hover-priority theorem at a concrete catalog,
hovered provider AWS, and differing search and filter inputs. -/
theorem displayedCompanies_hover_priority_w :
    displayedCompanies [⟨"Netflix", "NFLX", "netflix.com", "AWS"⟩]
        (some "AWS") "zzz" (some "Azure")
      = displayedCompanies [⟨"Netflix", "NFLX", "netflix.com", "AWS"⟩]
        (some "AWS") "" none :=
  (displayedCompanies_hover_priority [⟨"Netflix", "NFLX", "netflix.com", "AWS"⟩]
    "AWS" "zzz" "" (some "Azure") none (by decide)).2.1

theorem sum_bump (counts : List (String × Nat)) (p : String) :
    ((bump counts p).map Prod.snd).sum = (counts.map Prod.snd).sum + 1 := by
  induction counts with
  | nil => simp [bump]
  | cons hd tl ih =>
      obtain ⟨q, n⟩ := hd
      by_cases h : q = p
      · simp [bump, h]
        omega
      · simp [bump, h, ih]
        omega

theorem sum_providerCounts_foldl (l : List Company) (init : List (String × Nat)) :
    (((l.foldl (fun counts c => bump counts c.provider) init).map Prod.snd).sum)
      = (init.map Prod.snd).sum + l.length := by
  induction l generalizing init with
  | nil => simp
  | cons c cs ih =>
      simp only [List.foldl_cons, ih, sum_bump, List.length_cons]
      omega

theorem getCount_bump (counts : List (String × Nat)) (q p : String) :
    getCount (bump counts q) p = getCount counts p + if q = p then 1 else 0 := by
  induction counts with
  | nil =>
      by_cases h : q = p <;> simp [bump, getCount, h]
  | cons hd tl ih =>
      obtain ⟨k, n⟩ := hd
      by_cases hk : k = q
      · subst hk
        by_cases hp : k = p <;> simp [bump, getCount, hp]
      · by_cases hp : k = p
        · subst hp
          have hq : ¬ q = k := fun h => hk h.symm
          simp [bump, getCount, hk, hq]
        · simp [bump, getCount, hk, hp, ih]

theorem getCount_providerCounts_foldl (l : List Company) (init : List (String × Nat))
    (p : String) :
    getCount (l.foldl (fun counts c => bump counts c.provider) init) p
      = getCount init p + (l.filter fun c => c.provider == p).length := by
  induction l generalizing init with
  | nil => simp
  | cons c cs ih =>
      simp only [List.foldl_cons, ih, getCount_bump, List.filter_cons]
      by_cases h : c.provider = p
      · simp only [h, if_true, beq_self_eq_true, List.length_cons]
        omega
      · have hb : (c.provider == p) = false := by simp [h]
        simp [h, hb]

/-- C7: the provider counts are computed from the full catalog: each
count equals the number of catalog companies with that provider, and the
counts over all keys sum to the catalog length. -/
theorem providerCounts_totals (seed : List Company) (st : ExplorerState) :
    ((providerCounts (allCompanies seed st)).map Prod.snd).sum
        = (allCompanies seed st).length ∧
    (∀ p, getCount (providerCounts (allCompanies seed st)) p
        = ((allCompanies seed st).filter fun c => c.provider == p).length) := by
  constructor
  · rw [providerCounts, sum_providerCounts_foldl]
    simp
  · intro p
    rw [providerCounts, getCount_providerCounts_foldl]
    simp [getCount]

/-- C4 counterexample: on the empty catalog, the Big 3 computation is
not guarded: the source divides zero by zero, producing NaN (modelled as
none), so the displayed value is not the number 0. -/
theorem big3Percent_empty_nan : big3Percent [] = none := rfl

/-- C4 (amended): whenever the catalog is non-empty, the Big 3
percentage equals Math.round of 100 times the number of AWS, Azure and
GCP companies divided by the catalog size; the zero-total case is not
guarded and yields NaN instead of 0. -/
theorem big3Percent_formula (all : List Company) (h : all.length ≠ 0) :
    big3Percent all
      = some (jsRound (100 *
          (((all.filter fun c => c.provider == "AWS").length
            + (all.filter fun c => c.provider == "Azure").length
            + (all.filter fun c => c.provider == "GCP").length : Nat) : ℚ)
          / (all.length : ℚ))) := by
  rw [big3Percent]
  simp only [h, if_false]
  have hc : ∀ p, getCount (providerCounts all) p
      = (all.filter fun c => c.provider == p).length := by
    intro p
    rw [providerCounts, getCount_providerCounts_foldl]
    simp [getCount]
  rw [hc, hc, hc]
  congr 1
  rw [mul_comm, mul_div_assoc]

/-- Example catalog with three AWS companies, one Azure company and one
company outside the Big 3, matching the spec scenario for the Big 3
percentage. -/
def exCatalog5 : List Company :=
  [⟨"A1", "A1", "a1.com", "AWS"⟩, ⟨"A2", "A2", "a2.com", "AWS"⟩,
   ⟨"A3", "A3", "a3.com", "AWS"⟩, ⟨"B1", "B1", "b1.com", "Azure"⟩,
   ⟨"C1", "C1", "c1.com", "Other"⟩]

/-- Closed instance of the Big 3 formula: counts AWS 3, Azure 1, total 5
give a displayed percentage of 80. -/
theorem big3Percent_formula_w : big3Percent exCatalog5 = some 80 := by
  have h := big3Percent_formula exCatalog5 (by decide)
  rw [h]
  have a1 : (exCatalog5.filter fun c => c.provider == "AWS").length = 3 := by decide
  have a2 : (exCatalog5.filter fun c => c.provider == "Azure").length = 1 := by decide
  have a3 : (exCatalog5.filter fun c => c.provider == "GCP").length = 0 := by decide
  have a4 : exCatalog5.length = 5 := by decide
  rw [a1, a2, a3, a4]
  norm_num [jsRound, Option.some.injEq, Int.floor_eq_iff]

/-- C3 (amended): for every submitted input whose trimmed form is
non-empty and whose normalized domain already occurs in the catalog,
handleAddCompany sets detectionError to the duplicate message, changes
nothing else (in particular the catalog length), and issues no external
call. -/
theorem handleAddCompany_duplicate_rejected (seed : List Company) (s : ExplorerState)
    (d : DetectOutcome)
    (h1 : jsTrim s.newCompanyUrl ≠ "")
    (h2 : ((allCompanies seed s).any
        fun c => c.domain == normalizeDomain s.newCompanyUrl) = true) :
    handleAddCompany seed s d
        = ({ s with
              isDetecting := false,
              detectionError := some "Company already exists" }, 0) ∧
    (allCompanies seed (handleAddCompany seed s d).1).length
        = (allCompanies seed s).length := by
  have hb : (jsTrim s.newCompanyUrl == "") = false := by
    simpa using h1
  have h2' : ((allCompanies seed
      { s with isDetecting := true, detectionError := none }).any
      fun c => c.domain == normalizeDomain s.newCompanyUrl) = true := by
    simpa [allCompanies] using h2
  have hmain : handleAddCompany seed s d
      = ({ s with
            isDetecting := false,
            detectionError := some "Company already exists" }, 0) := by
    simp only [handleAddCompany, hb, Bool.false_eq_true, if_false, h2', if_true]
  exact ⟨hmain, by rw [hmain]; simp [allCompanies]⟩

/-- Closed instance of the duplicate rejection: submitting the domain of
a seeded company yields the duplicate message, an unchanged catalog and
zero external calls. -/
theorem handleAddCompany_duplicate_rejected_w :
    (handleAddCompany [⟨"Netflix", "NFLX", "netflix.com", "AWS"⟩]
        { customCompanies := [], newCompanyUrl := "netflix.com",
          isDetecting := false, detectionError := none } .fail).1.detectionError
      = some "Company already exists" := by
  have h := (handleAddCompany_duplicate_rejected
    [⟨"Netflix", "NFLX", "netflix.com", "AWS"⟩]
    { customCompanies := [], newCompanyUrl := "netflix.com",
      isDetecting := false, detectionError := none } .fail
    (by decide) (by decide)).1
  rw [h]

/-- C3 counterexample state, first step: submitting the literal www.
normalizes to the empty domain and (with a successful detection) appends
a company whose domain is the empty string. -/
def emptyDomainStart : ExplorerState :=
  { customCompanies := [], newCompanyUrl := "www.", isDetecting := false,
    detectionError := none }

/-- C3 counterexample state, second step: after the empty-domain company
exists, the user submits a blank input. -/
def blankAfterEmptyDomain : ExplorerState :=
  { (handleAddCompany [] emptyDomainStart (.ok "Other")).1 with newCompanyUrl := " " }

/-- C3 counterexample: a submitted blank input whose normalized domain
(the empty string) does occur in the catalog is rejected by the
empty-input check before the duplicate check, so detectionError is never
set to the duplicate message, contradicting the unrestricted claim. -/
theorem handleAddCompany_duplicate_blank_cex :
    ((allCompanies [] blankAfterEmptyDomain).any
        fun c => c.domain == normalizeDomain blankAfterEmptyDomain.newCompanyUrl) = true ∧
    handleAddCompany [] blankAfterEmptyDomain .fail = (blankAfterEmptyDomain, 0) ∧
    (handleAddCompany [] blankAfterEmptyDomain .fail).1.detectionError = none := by
  decide

/-- C8 (amended): an invocation whose trimmed input is empty returns the
state unchanged with no external call (in particular the previous
detectionError is kept, not cleared); an invocation whose trimmed input
is non-empty produces a detectionError that does not depend on the
previous detectionError, because the field is cleared at the start,
before the duplicate check and before any external call. -/
theorem handleAddCompany_clears_error (seed : List Company) (s : ExplorerState)
    (d : DetectOutcome) :
    (jsTrim s.newCompanyUrl = "" → handleAddCompany seed s d = (s, 0)) ∧
    (jsTrim s.newCompanyUrl ≠ "" →
      (handleAddCompany seed s d).1.detectionError
        = (handleAddCompany seed { s with detectionError := none } d).1.detectionError) := by
  constructor
  · intro h
    rw [handleAddCompany, if_pos (by simp [h])]
  · intro h
    have hb : (jsTrim s.newCompanyUrl == "") = false := by
      simpa using h
    simp only [handleAddCompany, hb, Bool.false_eq_true, if_false]

/-- Closed instance of the error-clearing theorem: with a stale error in
place and a fresh non-empty input, the resulting error is the same as it
would have been with no stale error. -/
theorem handleAddCompany_clears_error_w :
    (handleAddCompany []
        { customCompanies := [], newCompanyUrl := "example.com",
          isDetecting := false, detectionError := some "stale" } .fail).1.detectionError
      = (handleAddCompany []
        { customCompanies := [], newCompanyUrl := "example.com",
          isDetecting := false, detectionError := none } .fail).1.detectionError :=
  (handleAddCompany_clears_error []
    { customCompanies := [], newCompanyUrl := "example.com",
      isDetecting := false, detectionError := some "stale" } .fail).2 (by decide)

/-- C8 counterexample: an invocation on a blank input does not clear the
previous detectionError, contradicting the claim that every invocation
clears it at the start. -/
theorem handleAddCompany_empty_preserves_error :
    (handleAddCompany []
        { customCompanies := [], newCompanyUrl := " ",
          isDetecting := false, detectionError := some "old error" } .fail).1.detectionError
      = some "old error" := by
  decide

theorem removeFirst_of_no_occurrence (pat : List Char) (l : List Char)
    (h : hasSubstr pat l = false) : removeFirst pat l = l := by
  induction l with
  | nil => rfl
  | cons c cs ih =>
      rw [hasSubstr, Bool.or_eq_false_iff] at h
      rw [removeFirst, if_neg (by simp [h.1]), ih h.2]

theorem removeFirst_append_self (pat b : List Char) :
    removeFirst pat (pat ++ b) = b := by
  cases pat with
  | nil =>
      cases b with
      | nil => rfl
      | cons c cs =>
          show removeFirst [] (c :: cs) = c :: cs
          rw [removeFirst, if_pos (by simp)]
          rfl
  | cons p ps =>
      rw [List.cons_append, removeFirst, if_pos ?pre, ← List.cons_append,
        List.drop_left]
      case pre =>
        rw [← List.cons_append]
        simp only [List.isPrefixOf_iff_prefix]
        exact List.prefix_append _ _

theorem removeFirst_first_occurrence (pat a b : List Char)
    (h : ∀ i, i < a.length → pat.isPrefixOf ((a ++ (pat ++ b)).drop i) = false) :
    removeFirst pat (a ++ (pat ++ b)) = a ++ b := by
  induction a with
  | nil =>
      simp only [List.nil_append]
      exact removeFirst_append_self pat b
  | cons x a' ih =>
      have h0 : pat.isPrefixOf (x :: (a' ++ (pat ++ b))) = false := by
        have hx := h 0 (by simp)
        simpa using hx
      rw [List.cons_append, removeFirst, if_neg (by simp [h0]), ih ?rest]
      · rw [List.cons_append]
      case rest =>
        intro i hi
        have hx := h (i + 1) (by simpa using Nat.succ_lt_succ hi)
        simpa [List.drop_succ_cons] using hx

/-- C5 (amended): normalization strips a leading lowercase http:// or
https:// scheme by URL parsing (taking the host), otherwise it uses the
trimmed input; it then removes the FIRST occurrence of the literal www.
anywhere in the resulting string — not only a leading prefix. Stated for
schemeless inputs: the earliest www. occurrence, wherever it sits, is
removed, and a string without any occurrence is left unchanged. -/
theorem normalizeDomain_removes_first_www (s : String)
    (hsch : (jsStartsWith (jsTrim s) "http://"
        || jsStartsWith (jsTrim s) "https://") = false) :
    (∀ a b : List Char,
        (jsTrim s).data = a ++ ("www.".data ++ b) →
        (∀ i, i < a.length →
          ("www.".data).isPrefixOf ((a ++ ("www.".data ++ b)).drop i) = false) →
        normalizeDomain s = String.mk (a ++ b)) ∧
    (hasSubstr "www.".data (jsTrim s).data = false → normalizeDomain s = jsTrim s) := by
  constructor
  · intro a b hsplit hfirst
    simp only [normalizeDomain, hsch, Bool.false_eq_true, if_false]
    rw [hsplit, removeFirst_first_occurrence _ _ _ hfirst]
  · intro hno
    simp only [normalizeDomain, hsch, Bool.false_eq_true, if_false]
    rw [removeFirst_of_no_occurrence _ _ hno]

/-- C5 counterexample: an input whose only www. occurrence sits in the
middle still has that occurrence removed, although the claim says a
non-leading occurrence is left in place. -/
theorem normalizeDomain_middle_www_cex :
    normalizeDomain "docs.www.example.com" = "docs.example.com" := by
  decide

/-- Closed instance of the first-occurrence theorem: the middle www. of
a schemeless input is removed. -/
theorem normalizeDomain_removes_first_www_w :
    normalizeDomain "foo.www.bar.com" = "foo.bar.com" := by
  have h := (normalizeDomain_removes_first_www "foo.www.bar.com" (by decide)).1
    "foo.".data "bar.com".data (by decide) (by decide)
  rw [h]
  decide

/-- C10: scheme detection is case-sensitive: an input whose trimmed form
does not start with the lowercase literals http:// or https:// is not
URL-parsed, so (absent any www. occurrence) the stored domain is the
trimmed input itself, scheme text included. -/
theorem normalizeDomain_scheme_case_sensitive (s : String)
    (h1 : jsStartsWith (jsTrim s) "http://" = false)
    (h2 : jsStartsWith (jsTrim s) "https://" = false)
    (h3 : hasSubstr "www.".data (jsTrim s).data = false) :
    normalizeDomain s = jsTrim s := by
  simp only [normalizeDomain, h1, h2, Bool.or_self, Bool.false_eq_true, if_false]
  rw [removeFirst_of_no_occurrence _ _ h3]

/-- Closed instance of the case-sensitive scheme handling: an uppercase
HTTPS scheme is kept as part of the stored domain. -/
theorem normalizeDomain_scheme_case_sensitive_w :
    normalizeDomain "HTTPS://example.com" = "HTTPS://example.com" :=
  (normalizeDomain_scheme_case_sensitive "HTTPS://example.com"
    (by decide) (by decide) (by decide)).trans (by decide)

/-- C6: on a successful detection of a non-duplicate, non-empty input,
exactly one company is appended: its name is the first dot-separated
label of the normalized domain with only the first character
upper-cased, its symbol is CUSTOM, its domain is the normalized domain,
its provider is the detector answer; the draft input is cleared, the
loading flag is cleared, and exactly one external call was made. -/
theorem handleAddCompany_success_appends (seed : List Company) (s : ExplorerState)
    (p : String)
    (h1 : jsTrim s.newCompanyUrl ≠ "")
    (h2 : ((allCompanies seed s).any
        fun c => c.domain == normalizeDomain s.newCompanyUrl) = false) :
    handleAddCompany seed s (.ok p)
      = ({ s with
            customCompanies := s.customCompanies ++
              [{ name := upperFirst (firstLabel (normalizeDomain s.newCompanyUrl)),
                 symbol := "CUSTOM",
                 domain := normalizeDomain s.newCompanyUrl,
                 provider := p }],
            newCompanyUrl := "",
            isDetecting := false,
            detectionError := none }, 1) := by
  have hb : (jsTrim s.newCompanyUrl == "") = false := by
    simpa using h1
  have h2' : ((allCompanies seed
      { s with isDetecting := true, detectionError := none }).any
      fun c => c.domain == normalizeDomain s.newCompanyUrl) = false := by
    simpa [allCompanies] using h2
  simp only [handleAddCompany, hb, Bool.false_eq_true, if_false, h2']

/-- Closed instance of the success scenario from the spec: submitting
https colon slash slash www.stripe.com with the detector answering Other
appends exactly the entry Stripe, CUSTOM, stripe.com, Other, and clears
the draft. -/
theorem handleAddCompany_success_appends_w :
    (handleAddCompany [⟨"Netflix", "NFLX", "netflix.com", "AWS"⟩]
        { customCompanies := [], newCompanyUrl := "https://www.stripe.com",
          isDetecting := false, detectionError := none } (.ok "Other")).1.customCompanies
      = [{ name := "Stripe", symbol := "CUSTOM", domain := "stripe.com",
           provider := "Other" }] ∧
    (handleAddCompany [⟨"Netflix", "NFLX", "netflix.com", "AWS"⟩]
        { customCompanies := [], newCompanyUrl := "https://www.stripe.com",
          isDetecting := false, detectionError := none } (.ok "Other")).1.newCompanyUrl
      = "" := by
  have h := handleAddCompany_success_appends [⟨"Netflix", "NFLX", "netflix.com", "AWS"⟩]
    { customCompanies := [], newCompanyUrl := "https://www.stripe.com",
      isDetecting := false, detectionError := none } "Other" (by decide) (by decide)
  rw [h]
  decide

/-- C9: the provider recorded in the appended company is exactly the
string returned by the detector, for every string, with no validation
against the provider enumeration. -/
theorem handleAddCompany_provider_verbatim (seed : List Company) (s : ExplorerState)
    (p : String)
    (h1 : jsTrim s.newCompanyUrl ≠ "")
    (h2 : ((allCompanies seed s).any
        fun c => c.domain == normalizeDomain s.newCompanyUrl) = false) :
    ((handleAddCompany seed s (.ok p)).1.customCompanies).getLast?.map Company.provider
      = some p := by
  have hb : (jsTrim s.newCompanyUrl == "") = false := by
    simpa using h1
  have h2' : ((allCompanies seed
      { s with isDetecting := true, detectionError := none }).any
      fun c => c.domain == normalizeDomain s.newCompanyUrl) = false := by
    simpa [allCompanies] using h2
  simp only [handleAddCompany, hb, Bool.false_eq_true, if_false, h2']
  rw [List.getLast?_concat]
  rfl

/-- Closed instance of the verbatim-provider theorem: a detector answer
outside the documented provider enumeration is still recorded as the
provider of the appended company. -/
theorem handleAddCompany_provider_verbatim_w :
    ((handleAddCompany []
        { customCompanies := [], newCompanyUrl := "banana.example",
          isDetecting := false, detectionError := none } (.ok "Banana")).1.customCompanies).getLast?.map
        Company.provider = some "Banana" ∧
    "Banana" ∉ providerEnum :=
  ⟨handleAddCompany_provider_verbatim []
    { customCompanies := [], newCompanyUrl := "banana.example",
      isDetecting := false, detectionError := none } "Banana" (by decide) (by decide),
   by decide⟩
